import Mathlib

/-!
Shallow embedding of the spaced-repetition scheduler and the Learn-mode
session logic of `src/App.tsx` (quiz-practice-app).

Modelling conventions:
* JavaScript numbers are modelled as exact rationals (`ℚ`); timestamps are
  rationals counting milliseconds since the epoch; JS `null` is `Option.none`.
* `Math.random()`-driven choices are injected as explicit streams of numbers
  (`ℕ → ℕ`), one entry per call, reduced into range with `%`.
* `Date.now()` (wrapped by `nowMs`) is injected as an explicit clock: the
  k-th call to `nowMs()` during one invocation reads `clock k`.
-/

/-- Card record, `type CardT` of `src/App.tsx` (lines 25-35). -/
structure CardT where
  id : String
  term : String
  definition : String
  due : ℚ
  ef : ℚ
  reps : ℚ
  interval : ℚ
  lapses : ℚ
  lastReviewed : Option ℚ
deriving DecidableEq

/-- `clamp(n, a, b) = Math.max(a, Math.min(b, n))` (App.tsx line 57-59). -/
def clamp (n a b : ℚ) : ℚ := max a (min b n)

/-- JS `Math.round`: `⌊x + 1/2⌋` (round half toward positive infinity). -/
def jsRound (q : ℚ) : ℚ := ((⌊q + 1/2⌋ : ℤ) : ℚ)

/-- JS `x || 0` on a (non-NaN) number: `0` is falsy, all other numbers are
truthy, so the expression is the identity on rationals. -/
def orZero (q : ℚ) : ℚ := if q = 0 then 0 else q

/-- `scheduleNext` of App.tsx (lines 143-180), with the ambient clock made
explicit: the k-th call to `nowMs()` during the invocation returns `clock k`
(the source calls `nowMs()` twice on every path: once for `due`, once for
`lastReviewed`).  The grade is an integer, as at the JavaScript runtime; the
TypeScript annotation `0 | 1 | 2 | 3` is a static restriction only.  The
`typeof x === "number" ? x : default` reads of `ef`, `reps` and `interval`
are identities here because the model's fields are always numeric. -/
def scheduleNextClk (card : CardT) (grade : ℤ) (clock : ℕ → ℚ) : CardT :=
  let ef := card.ef
  let reps := card.reps
  let interval := card.interval
  if grade = 0 then
    { card with
      reps := 0
      interval := 0
      due := clock 0
      lapses := orZero card.lapses + 1
      ef := clamp (ef - 0.2) 1.3 3.0
      lastReviewed := some (clock 1) }
  else
    let newReps := reps + 1
    let newEf :=
      if grade = 1 then clamp (ef - 0.05) 1.3 3.0
      else if grade = 2 then clamp (ef + 0.02) 1.3 3.0
      else if grade = 3 then clamp (ef + 0.08) 1.3 3.0
      else ef
    let newInterval :=
      if newReps = 1 then 1
      else if newReps = 2 then (if grade = 1 then 2 else 3)
      else
        max 1 (jsRound (interval * newEf *
          (if grade = 1 then 1.15 else if grade = 2 then 1.35 else 1.7)))
    { card with
      reps := newReps
      ef := newEf
      interval := newInterval
      due := clock 0 + newInterval * 24 * 60 * 60 * 1000
      lastReviewed := some (clock 1) }

/-- `scheduleNext` under a clock that does not advance during the call:
every `nowMs()` read returns the same `now`. -/
def scheduleNext (card : CardT) (grade : ℤ) (now : ℚ) : CardT :=
  scheduleNextClk card grade (fun _ => now)

/-- A sample card used for concrete witnesses. -/
def sampleCard : CardT :=
  { id := "c1"
    term := "NIST"
    definition := "A US standards body."
    due := 0
    ef := 2.3
    reps := 0
    interval := 0
    lapses := 0
    lastReviewed := none }

/-- Deck record, `type DeckT` of App.tsx (lines 37-42). -/
structure DeckT where
  id : String
  name : String
  description : String
  cards : List CardT
deriving DecidableEq

/-- The due partition of `startLearn` (App.tsx line 577):
`selectedDeck.cards.filter((c) => (c.due ?? 0) <= now)` (`due` is always
numeric in the model, so `?? 0` is the identity). -/
def duePartition (cards : List CardT) (now : ℚ) : List CardT :=
  cards.filter (fun c => decide (c.due ≤ now))

/-- The not-due partition of `startLearn` (App.tsx line 578):
`selectedDeck.cards.filter((c) => (c.due ?? 0) > now)`. -/
def notDuePartition (cards : List CardT) (now : ℚ) : List CardT :=
  cards.filter (fun c => decide (now < c.due))

/-- One swap step `[a[i], a[j]] = [a[j], a[i]]` of `shuffleArray`
(App.tsx line 64), as a list operation; out-of-range indices leave the
list unchanged (they never occur in the loop). -/
def listSwap (a : List α) (i j : ℕ) : List α :=
  match a[i]?, a[j]? with
  | some x, some y => (a.set i y).set j x
  | _, _ => a

/-- The Fisher-Yates loop of `shuffleArray` (App.tsx lines 62-65): the
iteration at index `i` (running from `a.length - 1` down to `1`) swaps
`a[i]` with `a[j]` where `j = Math.floor(Math.random() * (i + 1))`; the
random draw is injected as `rand i % (i + 1)`, covering exactly the range
`0 ≤ j ≤ i` the source draws from. -/
def fyLoop (rand : ℕ → ℕ) : ℕ → List α → List α
  | 0, a => a
  | i + 1, a => fyLoop rand i (listSwap a (i + 1) (rand (i + 1) % (i + 2)))

/-- `shuffleArray` (App.tsx lines 60-67) with the randomness injected. -/
def shuffleArray (rand : ℕ → ℕ) (arr : List α) : List α :=
  fyLoop rand (arr.length - 1) arr

/-- The non-null part of `type LearnSession` (App.tsx lines 369-376). -/
structure LearnSess where
  startedAt : ℚ
  queue : List CardT
  idx : ℕ
  flipped : Bool
  graded : ℕ
  total : ℕ
deriving DecidableEq

/-- The session object built by `startLearn` (App.tsx lines 574-588) for a
deck's cards: shuffle the due partition, shuffle the not-due partition,
concatenate due-then-not-due, truncate with `.slice(0, 50)`.  The two
`shuffleArray` calls consume independent injected random streams. -/
def startLearnSession (cards : List CardT) (now : ℚ) (randDue randNot : ℕ → ℕ) : LearnSess :=
  let due := duePartition cards now
  let notDue := notDuePartition cards now
  let queue := (shuffleArray randDue due ++ shuffleArray randNot notDue).take 50
  { startedAt := now
    queue := queue
    idx := 0
    flipped := false
    graded := 0
    total := queue.length }

/-- The slice of component state that `gradeLearn` reads and writes. -/
structure LearnState where
  selectedDeck : Option DeckT
  learnSession : Option LearnSess
deriving DecidableEq

/-- `updateCard` (App.tsx lines 467-472) restricted to the selected deck:
replace every card whose id matches by the patch (`{ ...c, ...patch }`
equals the patch here because the patch passed by `gradeLearn` is a whole
card record). -/
def updateCard (d : DeckT) (cardId : String) (patch : CardT) : DeckT :=
  { d with cards := d.cards.map (fun c => if c.id = cardId then patch else c) }

/-- `gradeLearn` (App.tsx lines 590-602): no-op unless a deck is selected,
a session exists and `queue[idx]` is defined; otherwise schedule the current
card, write it back by id, advance `idx`, reset `flipped`, bump `graded`.
Note the source performs no check of `flipped`. -/
def gradeLearn (st : LearnState) (grade : ℤ) (now : ℚ) : LearnState :=
  match st.selectedDeck, st.learnSession with
  | some deck, some ls =>
    match ls.queue.get? ls.idx with
    | some card =>
      let updated := scheduleNext card grade now
      { selectedDeck := some (updateCard deck card.id updated)
        learnSession := some { ls with idx := ls.idx + 1, flipped := false, graded := ls.graded + 1 } }
    | none => st
  | _, _ => st

/-- Helper: replacing position `m` (which holds `y`) by `x` and consing `y`
permutes consing `x`. -/
theorem cons_set_perm {α : Type _} : ∀ (xs : List α) (m : ℕ) (x y : α),
    xs[m]? = some y → List.Perm (y :: xs.set m x) (x :: xs)
  | [], m, _, _, h => by simp at h
  | z :: zs, 0, x, y, h => by
    simp only [List.getElem?_cons_zero, Option.some.injEq] at h
    subst h
    simpa using List.Perm.swap x z zs
  | z :: zs, m + 1, x, y, h => by
    simp only [List.getElem?_cons_succ] at h
    have ih := cons_set_perm zs m x y h
    have h1 : y :: (z :: zs).set (m + 1) x = y :: z :: zs.set m x := by simp
    rw [h1]
    exact ((List.Perm.swap z y (zs.set m x)).trans (ih.cons z)).trans (List.Perm.swap x z zs)

/-- A swap step is a permutation, for any indices. -/
theorem listSwap_perm {α : Type _} : ∀ (a : List α) (i j : ℕ), List.Perm (listSwap a i j) a
  | [], _, _ => by simp [listSwap]
  | x :: xs, 0, 0 => by
    have h : listSwap (x :: xs) 0 0 = x :: xs := by simp [listSwap]
    rw [h]
  | x :: xs, 0, m + 1 => by
    cases h : xs[m]? with
    | none =>
      have he : listSwap (x :: xs) 0 (m + 1) = x :: xs := by simp [listSwap, h]
      rw [he]
    | some y =>
      have he : listSwap (x :: xs) 0 (m + 1) = y :: xs.set m x := by simp [listSwap, h]
      rw [he]
      exact cons_set_perm xs m x y h
  | x :: xs, n + 1, 0 => by
    cases h : xs[n]? with
    | none =>
      have he : listSwap (x :: xs) (n + 1) 0 = x :: xs := by simp [listSwap, h]
      rw [he]
    | some z =>
      have he : listSwap (x :: xs) (n + 1) 0 = z :: xs.set n x := by simp [listSwap, h]
      rw [he]
      exact cons_set_perm xs n x z h
  | x :: xs, n + 1, m + 1 => by
    cases hn : xs[n]? with
    | none =>
      have he : listSwap (x :: xs) (n + 1) (m + 1) = x :: xs := by simp [listSwap, hn]
      rw [he]
    | some p =>
      cases hm : xs[m]? with
      | none =>
        have he : listSwap (x :: xs) (n + 1) (m + 1) = x :: xs := by simp [listSwap, hn, hm]
        rw [he]
      | some q =>
        have ih := listSwap_perm xs n m
        have he : listSwap (x :: xs) (n + 1) (m + 1) = x :: listSwap xs n m := by
          simp [listSwap, hn, hm]
        rw [he]
        exact ih.cons x

/-- Every pass of the Fisher-Yates loop permutes its input. -/
theorem fyLoop_perm {α : Type _} (rand : ℕ → ℕ) :
    ∀ (n : ℕ) (a : List α), List.Perm (fyLoop rand n a) a
  | 0, a => List.Perm.refl a
  | n + 1, a =>
    (fyLoop_perm rand n (listSwap a (n + 1) (rand (n + 1) % (n + 2)))).trans
      (listSwap_perm a (n + 1) (rand (n + 1) % (n + 2)))

/-- `shuffleArray` returns a permutation of its input, whatever the injected
random stream. -/
theorem shuffleArray_perm {α : Type _} (rand : ℕ → ℕ) (arr : List α) :
    List.Perm (shuffleArray rand arr) arr :=
  fyLoop_perm rand (arr.length - 1) arr

/-- Helper: lower bound of `clamp`. -/
theorem clamp_lb (x a b : ℚ) : a ≤ clamp x a b := le_max_left a _

/-- Helper: upper bound of `clamp`. -/
theorem clamp_ub (x a b : ℚ) (h : a ≤ b) : clamp x a b ≤ b :=
  max_le h (min_le_left _ _)

/-- Helper: `clamp` is monotone in its first argument. -/
theorem clamp_mono (a b : ℚ) {x y : ℚ} (h : x ≤ y) : clamp x a b ≤ clamp y a b :=
  max_le_max (le_refl a) (min_le_min (le_refl b) h)

/-- Helper: JS rounding is monotone. -/
theorem jsRound_mono {x y : ℚ} (h : x ≤ y) : jsRound x ≤ jsRound y := by
  unfold jsRound
  exact_mod_cast Int.floor_le_floor (by linarith)

/-- C2: grading `Again` (grade 0) resets `reps` and `interval` to 0, makes the
card due at `now`, bumps `lapses`, drops `ef` by 0.2 clamped from below at
1.3, and stamps `lastReviewed`.  The hypothesis is the data-model invariant
`ef ≤ 3.0` (without it the source's upper clamp at 3.0 would differ from the
claim's `max`-only formula). -/
theorem again_resets_card (card : CardT) (now : ℚ) (hef : card.ef ≤ 3) :
    (scheduleNext card 0 now).reps = 0
    ∧ (scheduleNext card 0 now).interval = 0
    ∧ (scheduleNext card 0 now).due = now
    ∧ (scheduleNext card 0 now).lapses = card.lapses + 1
    ∧ (scheduleNext card 0 now).ef = max 1.3 (card.ef - 0.2)
    ∧ (scheduleNext card 0 now).lastReviewed = some now := by
  have hmin : min (3.0 : ℚ) (card.ef - 0.2) = card.ef - 0.2 := by
    apply min_eq_right
    norm_num
    linarith
  have horz : orZero card.lapses = card.lapses := by
    unfold orZero
    split
    · rename_i h
      exact h.symm
    · rfl
  refine ⟨?_, ?_, ?_, ?_, ?_, ?_⟩ <;>
    simp [scheduleNext, scheduleNextClk, clamp, hmin, horz]

/-- Witness for `again_resets_card` at a concrete card and time. -/
theorem again_resets_card_witness :
    (scheduleNext sampleCard 0 7).reps = 0
    ∧ (scheduleNext sampleCard 0 7).interval = 0
    ∧ (scheduleNext sampleCard 0 7).due = 7
    ∧ (scheduleNext sampleCard 0 7).lapses = sampleCard.lapses + 1
    ∧ (scheduleNext sampleCard 0 7).ef = max 1.3 (sampleCard.ef - 0.2)
    ∧ (scheduleNext sampleCard 0 7).lastReviewed = some 7 :=
  again_resets_card sampleCard 7 (by norm_num [sampleCard])

/-- C1: for every non-`Again` grade (1 Hard, 2 Good, 3 Easy) the scheduler
increments `reps`, adjusts `ef` by -0.05 / +0.02 / +0.08 clamped to
[1.3, 3.0], computes the new interval as 1 when the new reps is 1, as 2
(Hard) or 3 (otherwise) when the new reps is 2, and otherwise as
`max 1 (round(previous interval * new ef * multiplier))` with multiplier
1.15 / 1.35 / 1.7 — the multiplication uses the post-grade ease factor
`(scheduleNext card g now).ef` — and sets `due = now + interval' * 86400000`
and `lastReviewed = now`. -/
theorem success_grade_schedule (card : CardT) (g : ℤ) (now : ℚ)
    (hg : g = 1 ∨ g = 2 ∨ g = 3) :
    (scheduleNext card g now).reps = card.reps + 1
    ∧ (g = 1 → (scheduleNext card g now).ef = clamp (card.ef - 0.05) 1.3 3.0)
    ∧ (g = 2 → (scheduleNext card g now).ef = clamp (card.ef + 0.02) 1.3 3.0)
    ∧ (g = 3 → (scheduleNext card g now).ef = clamp (card.ef + 0.08) 1.3 3.0)
    ∧ (scheduleNext card g now).interval =
        (if card.reps + 1 = 1 then 1
         else if card.reps + 1 = 2 then (if g = 1 then 2 else 3)
         else
           max 1 (jsRound (card.interval * (scheduleNext card g now).ef *
             (if g = 1 then 1.15 else if g = 2 then 1.35 else 1.7))))
    ∧ (scheduleNext card g now).due = now + (scheduleNext card g now).interval * 86400000
    ∧ (scheduleNext card g now).lastReviewed = some now := by
  rcases hg with rfl | rfl | rfl <;>
    refine ⟨?_, ?_, ?_, ?_, ?_, ?_, ?_⟩ <;>
      norm_num [scheduleNext, scheduleNextClk] <;>
        split_ifs <;> ring

/-- Witness for `success_grade_schedule`: spec §8 scenario B, card
`{reps: 2, interval: 3, ef: 2.3}` graded Hard at `now = 100`. -/
theorem success_grade_schedule_witness :
    (scheduleNext { sampleCard with reps := 2, interval := 3 } 1 100).reps =
        { sampleCard with reps := 2, interval := 3 : CardT }.reps + 1
    ∧ ((1 : ℤ) = 1 → (scheduleNext { sampleCard with reps := 2, interval := 3 } 1 100).ef =
        clamp ({ sampleCard with reps := 2, interval := 3 : CardT }.ef - 0.05) 1.3 3.0)
    ∧ ((1 : ℤ) = 2 → (scheduleNext { sampleCard with reps := 2, interval := 3 } 1 100).ef =
        clamp ({ sampleCard with reps := 2, interval := 3 : CardT }.ef + 0.02) 1.3 3.0)
    ∧ ((1 : ℤ) = 3 → (scheduleNext { sampleCard with reps := 2, interval := 3 } 1 100).ef =
        clamp ({ sampleCard with reps := 2, interval := 3 : CardT }.ef + 0.08) 1.3 3.0)
    ∧ (scheduleNext { sampleCard with reps := 2, interval := 3 } 1 100).interval =
        (if { sampleCard with reps := 2, interval := 3 : CardT }.reps + 1 = 1 then 1
         else if { sampleCard with reps := 2, interval := 3 : CardT }.reps + 1 = 2 then
           (if (1 : ℤ) = 1 then 2 else 3)
         else
           max 1 (jsRound ({ sampleCard with reps := 2, interval := 3 : CardT }.interval *
             (scheduleNext { sampleCard with reps := 2, interval := 3 } 1 100).ef *
             (if (1 : ℤ) = 1 then 1.15 else if (1 : ℤ) = 2 then 1.35 else 1.7))))
    ∧ (scheduleNext { sampleCard with reps := 2, interval := 3 } 1 100).due =
        100 + (scheduleNext { sampleCard with reps := 2, interval := 3 } 1 100).interval * 86400000
    ∧ (scheduleNext { sampleCard with reps := 2, interval := 3 } 1 100).lastReviewed = some 100 :=
  success_grade_schedule { sampleCard with reps := 2, interval := 3 } 1 100 (Or.inl rfl)

/-- C3: for any of the four enum grades, the scheduled card's `ef` lies in
[1.3, 3.0] (for any input card: the clamp enforces it), its interval is at
least 1 after any non-`Again` grade, and its interval is 0 only when its
reps is 0. -/
theorem schedule_invariant (card : CardT) (g : ℤ) (now : ℚ)
    (hg : g = 0 ∨ g = 1 ∨ g = 2 ∨ g = 3) :
    1.3 ≤ (scheduleNext card g now).ef
    ∧ (scheduleNext card g now).ef ≤ 3.0
    ∧ (g ≠ 0 → 1 ≤ (scheduleNext card g now).interval)
    ∧ ((scheduleNext card g now).interval = 0 → (scheduleNext card g now).reps = 0) := by
  have hone : ∀ h : ℤ, h ≠ 0 → 1 ≤ (scheduleNext card h now).interval := by
    intro h hh
    simp [scheduleNext, scheduleNextClk, hh]
    split_ifs <;> norm_num [le_max_left]
  have hzero : (scheduleNext card g now).interval = 0 → (scheduleNext card g now).reps = 0 := by
    intro hiz
    by_cases h0 : g = 0
    · subst h0
      simp [scheduleNext, scheduleNextClk]
    · have h1 := hone g h0
      rw [hiz] at h1
      norm_num at h1
  have hef : ∃ x, (scheduleNext card g now).ef = clamp x 1.3 3.0 := by
    rcases hg with rfl | rfl | rfl | rfl
    · exact ⟨card.ef - 0.2, by simp [scheduleNext, scheduleNextClk]⟩
    · exact ⟨card.ef - 0.05, by simp [scheduleNext, scheduleNextClk]⟩
    · exact ⟨card.ef + 0.02, by simp [scheduleNext, scheduleNextClk]⟩
    · exact ⟨card.ef + 0.08, by simp [scheduleNext, scheduleNextClk]⟩
  obtain ⟨x, hx⟩ := hef
  refine ⟨?_, ?_, fun h => hone g h, hzero⟩
  · rw [hx]
    exact clamp_lb x 1.3 3.0
  · rw [hx]
    exact clamp_ub x 1.3 3.0 (by norm_num)

/-- Witness for `schedule_invariant` at grade Good on the sample card. -/
theorem schedule_invariant_witness :
    1.3 ≤ (scheduleNext sampleCard 2 100).ef
    ∧ (scheduleNext sampleCard 2 100).ef ≤ 3.0
    ∧ ((2 : ℤ) ≠ 0 → 1 ≤ (scheduleNext sampleCard 2 100).interval)
    ∧ ((scheduleNext sampleCard 2 100).interval = 0 → (scheduleNext sampleCard 2 100).reps = 0) :=
  schedule_invariant sampleCard 2 100 (Or.inr (Or.inr (Or.inl rfl)))

/-- C9: from the same starting card with post-increment reps at least 3
(`2 ≤ reps`, non-negative stored interval), grading Easy yields an interval
at least as large as grading Hard. -/
theorem easy_interval_ge_hard (card : CardT) (now : ℚ)
    (hreps : 2 ≤ card.reps) (hint : 0 ≤ card.interval) :
    (scheduleNext card 1 now).interval ≤ (scheduleNext card 3 now).interval := by
  have h1 : ¬(card.reps + 1 = 1) := by
    intro h
    linarith
  have h2 : ¬(card.reps + 1 = 2) := by
    intro h
    linarith
  have hefh : clamp (card.ef - 0.05) 1.3 3.0 ≤ clamp (card.ef + 0.08) 1.3 3.0 :=
    clamp_mono _ _ (by linarith)
  have hlbe : (1.3 : ℚ) ≤ clamp (card.ef + 0.08) 1.3 3.0 := clamp_lb _ _ _
  have s1 : card.interval * clamp (card.ef - 0.05) 1.3 3.0
      ≤ card.interval * clamp (card.ef + 0.08) 1.3 3.0 :=
    mul_le_mul_of_nonneg_left hefh hint
  have s2 : (0 : ℚ) ≤ card.interval * clamp (card.ef + 0.08) 1.3 3.0 :=
    mul_nonneg hint (by linarith)
  have hmul : card.interval * clamp (card.ef - 0.05) 1.3 3.0 * 1.15
      ≤ card.interval * clamp (card.ef + 0.08) 1.3 3.0 * 1.7 := by
    have t1 : card.interval * clamp (card.ef - 0.05) 1.3 3.0 * 1.15
        ≤ card.interval * clamp (card.ef + 0.08) 1.3 3.0 * 1.15 :=
      mul_le_mul_of_nonneg_right s1 (by norm_num)
    have t2 : card.interval * clamp (card.ef + 0.08) 1.3 3.0 * 1.15
        ≤ card.interval * clamp (card.ef + 0.08) 1.3 3.0 * 1.7 :=
      mul_le_mul_of_nonneg_left (by norm_num) s2
    linarith
  have e1 : (scheduleNext card 1 now).interval =
      max 1 (jsRound (card.interval * clamp (card.ef - 0.05) 1.3 3.0 * 1.15)) := by
    simp [scheduleNext, scheduleNextClk, h1, h2]
  have e3 : (scheduleNext card 3 now).interval =
      max 1 (jsRound (card.interval * clamp (card.ef + 0.08) 1.3 3.0 * 1.7)) := by
    simp [scheduleNext, scheduleNextClk, h1, h2]
  rw [e1, e3]
  exact max_le_max (le_refl 1) (jsRound_mono hmul)

/-- Witness for `easy_interval_ge_hard`: a card with reps 5 and interval 20. -/
theorem easy_interval_ge_hard_witness :
    (scheduleNext { sampleCard with reps := 5, interval := 20 } 1 100).interval
      ≤ (scheduleNext { sampleCard with reps := 5, interval := 20 } 3 100).interval :=
  easy_interval_ge_hard { sampleCard with reps := 5, interval := 20 } 100
    (by norm_num [sampleCard]) (by norm_num [sampleCard])

/-- C7 counterexample: the source's `scheduleNext` reads the clock through
the ambient `nowMs()` (`Date.now()`), not an injected parameter.  Two
invocations with identical card, identical grade and the identical timestamp
at the moment of invocation (`clock 0 = 0` for both) produce different
output cards when the ambient clock advances between the two internal
`nowMs()` reads, so the output is not a function of (card, grade, now). -/
theorem scheduler_ambient_clock_cex :
    (fun _ : ℕ => (0 : ℚ)) 0 = (fun k : ℕ => if k = 0 then (0 : ℚ) else 1) 0
    ∧ scheduleNextClk sampleCard 0 (fun _ => 0)
        ≠ scheduleNextClk sampleCard 0 (fun k => if k = 0 then 0 else 1) := by
  refine ⟨rfl, fun h => ?_⟩
  have hlr := congrArg CardT.lastReviewed h
  simp [scheduleNextClk, sampleCard] at hlr

/-- C7 amended: the scheduler is deterministic given card, grade and the
ambient clock readings it performs — its output depends on the ambient
clock only through the two `nowMs()` reads, so with a non-advancing clock
it is a pure function of (card, grade, now). -/
theorem scheduler_deterministic_given_clock_reads (card : CardT) (g : ℤ)
    (clk clk' : ℕ → ℚ) (h0 : clk 0 = clk' 0) (h1 : clk 1 = clk' 1) :
    scheduleNextClk card g clk = scheduleNextClk card g clk' := by
  unfold scheduleNextClk
  rw [h0, h1]

/-- Witness for `scheduler_deterministic_given_clock_reads`: two clocks that
agree on the first two reads but differ later. -/
theorem scheduler_deterministic_given_clock_reads_witness :
    scheduleNextClk sampleCard 2 (fun k => (k : ℚ))
      = scheduleNextClk sampleCard 2 (fun k => if k ≤ 1 then (k : ℚ) else 99) :=
  scheduler_deterministic_given_clock_reads sampleCard 2 _ _ (by norm_num) (by norm_num)

/-- C8 counterexample: at the JavaScript runtime a grade outside
{0, 1, 2, 3} is not rejected — `scheduleNext` silently runs its success
branch.  With grade 4 on a fresh card it increments `reps`, leaves `ef`
untouched (2.3, a fifth behavior distinct from the Easy adjustment to 2.38)
and schedules the card one day out, exactly like a successful review. -/
theorem out_of_range_grade_cex :
    (scheduleNext sampleCard 4 100).reps = 1
    ∧ (scheduleNext sampleCard 4 100).ef = 2.3
    ∧ (scheduleNext sampleCard 4 100).interval = 1
    ∧ (scheduleNext sampleCard 4 100).due = 100 + 86400000
    ∧ (scheduleNext sampleCard 4 100).ef ≠ (scheduleNext sampleCard 3 100).ef := by
  refine ⟨?_, ?_, ?_, ?_, ?_⟩ <;>
    norm_num [scheduleNext, scheduleNextClk, sampleCard, clamp]

/-- C8 amended: out-of-range grades are excluded only statically by the
TypeScript annotation `0 | 1 | 2 | 3`; at runtime any grade outside the
enum and different from 0 takes the success path with no ease-factor
adjustment and (for the growth branch) the 1.7 multiplier. -/
theorem out_of_range_grade_behavior (card : CardT) (g : ℤ) (now : ℚ)
    (h0 : g ≠ 0) (h1 : g ≠ 1) (h2 : g ≠ 2) (h3 : g ≠ 3) :
    (scheduleNext card g now).ef = card.ef
    ∧ (scheduleNext card g now).reps = card.reps + 1
    ∧ (scheduleNext card g now).interval =
        (if card.reps + 1 = 1 then 1
         else if card.reps + 1 = 2 then 3
         else max 1 (jsRound (card.interval * card.ef * 1.7)))
    ∧ (scheduleNext card g now).due = now + (scheduleNext card g now).interval * 86400000
    ∧ (scheduleNext card g now).lastReviewed = some now := by
  refine ⟨?_, ?_, ?_, ?_, ?_⟩ <;>
    norm_num [scheduleNext, scheduleNextClk, h0, h1, h2, h3]
  split_ifs <;> ring

/-- Witness for `out_of_range_grade_behavior` at grade 4. -/
theorem out_of_range_grade_behavior_witness :
    (scheduleNext sampleCard 4 100).ef = sampleCard.ef
    ∧ (scheduleNext sampleCard 4 100).reps = sampleCard.reps + 1
    ∧ (scheduleNext sampleCard 4 100).interval =
        (if sampleCard.reps + 1 = 1 then 1
         else if sampleCard.reps + 1 = 2 then 3
         else max 1 (jsRound (sampleCard.interval * sampleCard.ef * 1.7)))
    ∧ (scheduleNext sampleCard 4 100).due = 100 + (scheduleNext sampleCard 4 100).interval * 86400000
    ∧ (scheduleNext sampleCard 4 100).lastReviewed = some 100 :=
  out_of_range_grade_behavior sampleCard 4 100 (by norm_num) (by norm_num) (by norm_num)
    (by norm_num)

/-- C6: a card is in the due partition iff `card.due ≤ now` (and in the
not-due partition iff `now < card.due`); both partitions are sublists of
the input (stable, no reordering); and their concatenation is a permutation
of the input collection — every card exactly once. -/
theorem due_partition_correct (cards : List CardT) (now : ℚ) :
    (∀ c, c ∈ duePartition cards now ↔ c ∈ cards ∧ c.due ≤ now)
    ∧ (∀ c, c ∈ notDuePartition cards now ↔ c ∈ cards ∧ now < c.due)
    ∧ List.Sublist (duePartition cards now) cards
    ∧ List.Sublist (notDuePartition cards now) cards
    ∧ List.Perm (duePartition cards now ++ notDuePartition cards now) cards := by
  refine ⟨?_, ?_, List.filter_sublist cards, List.filter_sublist cards, ?_⟩
  · intro c
    simp [duePartition, List.mem_filter]
  · intro c
    simp [notDuePartition, List.mem_filter]
  · have hcompl : ∀ c ∈ cards,
        (!decide (c.due ≤ now)) = decide (now < c.due) := by
      intro c _
      by_cases h : c.due ≤ now
      · simp [h, not_lt.mpr h]
      · simp [h, lt_of_not_le h]
    have hperm := List.filter_append_perm (fun c : CardT => decide (c.due ≤ now)) cards
    rwa [List.filter_congr hcompl] at hperm

/-- Witness for `due_partition_correct` on a concrete five-card collection. -/
theorem due_partition_correct_witness :
    (∀ c, c ∈ duePartition [sampleCard] 100 ↔ c ∈ [sampleCard] ∧ c.due ≤ 100)
    ∧ (∀ c, c ∈ notDuePartition [sampleCard] 100 ↔ c ∈ [sampleCard] ∧ 100 < c.due)
    ∧ List.Sublist (duePartition [sampleCard] 100) [sampleCard]
    ∧ List.Sublist (notDuePartition [sampleCard] 100) [sampleCard]
    ∧ List.Perm (duePartition [sampleCard] 100 ++ notDuePartition [sampleCard] 100) [sampleCard] :=
  due_partition_correct [sampleCard] 100

/-- C5: starting a Learn session builds the queue as a permutation of the
due partition followed by a permutation of the not-due partition (the
permutations being whatever the injected randomness produces), truncated to
at most 50 cards, and initializes position 0, graded count 0, unflipped
flip-state and `total` = queue length; with 3 due and 2 not-due cards the
queue has length 5 and every due card sits before every not-due card. -/
theorem start_learn_builds_queue (cards : List CardT) (now : ℚ) (randDue randNot : ℕ → ℕ) :
    (∃ d n, List.Perm d (duePartition cards now)
        ∧ List.Perm n (notDuePartition cards now)
        ∧ (startLearnSession cards now randDue randNot).queue = (d ++ n).take 50)
    ∧ (startLearnSession cards now randDue randNot).idx = 0
    ∧ (startLearnSession cards now randDue randNot).graded = 0
    ∧ (startLearnSession cards now randDue randNot).flipped = false
    ∧ (startLearnSession cards now randDue randNot).total =
        (startLearnSession cards now randDue randNot).queue.length
    ∧ (startLearnSession cards now randDue randNot).queue.length ≤ 50
    ∧ ((duePartition cards now).length = 3 → (notDuePartition cards now).length = 2 →
        (startLearnSession cards now randDue randNot).queue.length = 5
        ∧ (∀ c ∈ (startLearnSession cards now randDue randNot).queue.take 3,
            c ∈ duePartition cards now)
        ∧ (∀ c ∈ (startLearnSession cards now randDue randNot).queue.drop 3,
            c ∈ notDuePartition cards now)) := by
  have hd := shuffleArray_perm randDue (duePartition cards now)
  have hn := shuffleArray_perm randNot (notDuePartition cards now)
  have hq : (startLearnSession cards now randDue randNot).queue =
      (shuffleArray randDue (duePartition cards now)
        ++ shuffleArray randNot (notDuePartition cards now)).take 50 := rfl
  refine ⟨⟨_, _, hd, hn, hq⟩, rfl, rfl, rfl, rfl, ?_, ?_⟩
  · rw [hq, List.length_take]
    exact min_le_left 50 _
  · intro h3 h2
    have hdlen : (shuffleArray randDue (duePartition cards now)).length = 3 :=
      hd.length_eq.trans h3
    have hnlen : (shuffleArray randNot (notDuePartition cards now)).length = 2 :=
      hn.length_eq.trans h2
    have hcat : (startLearnSession cards now randDue randNot).queue =
        shuffleArray randDue (duePartition cards now)
          ++ shuffleArray randNot (notDuePartition cards now) := by
      rw [hq]
      apply List.take_of_length_le
      rw [List.length_append, hdlen, hnlen]
      norm_num
    refine ⟨?_, ?_, ?_⟩
    · rw [hcat, List.length_append, hdlen, hnlen]
    · intro c hc
      rw [hcat, List.take_left' hdlen] at hc
      exact hd.subset hc
    · intro c hc
      rw [hcat, List.drop_left' hdlen] at hc
      exact hn.subset hc

/-- A concrete collection with three due cards and two not-due cards
relative to `now = 100`. -/
def fiveCards : List CardT :=
  [{ sampleCard with id := "a", due := 0 },
   { sampleCard with id := "b", due := 50 },
   { sampleCard with id := "c", due := 100 },
   { sampleCard with id := "d", due := 150 },
   { sampleCard with id := "e", due := 200 }]

/-- Witness for `start_learn_builds_queue`: the concrete 3-due / 2-not-due
scenario, with the scenario's premises checked by evaluation. -/
theorem start_learn_builds_queue_witness :
    (duePartition fiveCards 100).length = 3
    ∧ (notDuePartition fiveCards 100).length = 2
    ∧ ((∃ d n, List.Perm d (duePartition fiveCards 100)
          ∧ List.Perm n (notDuePartition fiveCards 100)
          ∧ (startLearnSession fiveCards 100 (fun _ => 0) (fun _ => 0)).queue = (d ++ n).take 50)
        ∧ (startLearnSession fiveCards 100 (fun _ => 0) (fun _ => 0)).idx = 0
        ∧ (startLearnSession fiveCards 100 (fun _ => 0) (fun _ => 0)).graded = 0
        ∧ (startLearnSession fiveCards 100 (fun _ => 0) (fun _ => 0)).flipped = false
        ∧ (startLearnSession fiveCards 100 (fun _ => 0) (fun _ => 0)).total =
            (startLearnSession fiveCards 100 (fun _ => 0) (fun _ => 0)).queue.length
        ∧ (startLearnSession fiveCards 100 (fun _ => 0) (fun _ => 0)).queue.length ≤ 50
        ∧ ((duePartition fiveCards 100).length = 3 → (notDuePartition fiveCards 100).length = 2 →
            (startLearnSession fiveCards 100 (fun _ => 0) (fun _ => 0)).queue.length = 5
            ∧ (∀ c ∈ (startLearnSession fiveCards 100 (fun _ => 0) (fun _ => 0)).queue.take 3,
                c ∈ duePartition fiveCards 100)
            ∧ (∀ c ∈ (startLearnSession fiveCards 100 (fun _ => 0) (fun _ => 0)).queue.drop 3,
                c ∈ notDuePartition fiveCards 100))) :=
  ⟨by norm_num [duePartition, fiveCards, sampleCard, List.filter_cons],
   by norm_num [notDuePartition, fiveCards, sampleCard, List.filter_cons],
   start_learn_builds_queue fiveCards 100 (fun _ => 0) (fun _ => 0)⟩

/-- A concrete deck, session and state for the Learn-mode counterexamples:
the session's current card is unflipped. -/
def sampleDeck : DeckT :=
  { id := "d1", name := "Deck", description := "", cards := [sampleCard] }

/-- A session whose current card exists and is not flipped. -/
def sampleSession : LearnSess :=
  { startedAt := 0, queue := [sampleCard], idx := 0, flipped := false, graded := 0, total := 1 }

/-- State holding `sampleDeck` and `sampleSession`. -/
def sampleState : LearnState :=
  { selectedDeck := some sampleDeck, learnSession := some sampleSession }

/-- C4 counterexample: `gradeLearn` never checks the flip-state.  In a
state whose current card is unflipped (`sampleSession.flipped = false`),
grading still changes the state, refuting "changes state only if the
current card's flip-state is flipped". -/
theorem grade_ignores_flip_cex :
    sampleState.learnSession = some sampleSession
    ∧ sampleSession.flipped = false
    ∧ gradeLearn sampleState 2 100 ≠ sampleState := by
  refine ⟨rfl, rfl, fun h => ?_⟩
  have hs := congrArg LearnState.learnSession h
  simp [gradeLearn, sampleState, sampleSession, sampleDeck] at hs

/-- C4 amended: `gradeLearn` changes state iff a deck is selected, a session
exists and a current card exists — the flip-state is NOT checked.  When
applicable it schedules the current card, writes the result back to the
deck's card collection by identifier, advances the position, increments the
graded count and resets the flip-state; in every invalid state it is a
silent no-op leaving the whole state (session and card collection)
unchanged. -/
theorem grade_applies_iff_valid (st : LearnState) (g : ℤ) (now : ℚ) :
    (∀ deck ls card, st.selectedDeck = some deck → st.learnSession = some ls →
        ls.queue.get? ls.idx = some card →
        gradeLearn st g now =
          { selectedDeck := some (updateCard deck card.id (scheduleNext card g now))
            learnSession := some { ls with
              idx := ls.idx + 1
              flipped := false
              graded := ls.graded + 1 } }
        ∧ gradeLearn st g now ≠ st)
    ∧ (st.selectedDeck = none → gradeLearn st g now = st)
    ∧ (st.learnSession = none → gradeLearn st g now = st)
    ∧ (∀ ls, st.learnSession = some ls → ls.queue.get? ls.idx = none →
        gradeLearn st g now = st) := by
  obtain ⟨sd, sls⟩ := st
  refine ⟨?_, ?_, ?_, ?_⟩
  · rintro deck ls card rfl rfl hget
    have happ : gradeLearn ⟨some deck, some ls⟩ g now =
        { selectedDeck := some (updateCard deck card.id (scheduleNext card g now))
          learnSession := some { ls with
            idx := ls.idx + 1
            flipped := false
            graded := ls.graded + 1 } } := by
      unfold gradeLearn
      dsimp only
      split
      · rename_i c hc
        rw [hget] at hc
        injection hc with hc
        subst hc
        rfl
      · rename_i hc
        rw [hget] at hc
        simp at hc
    refine ⟨happ, fun heq => ?_⟩
    rw [happ] at heq
    have hs := Option.some.inj (congrArg LearnState.learnSession heq)
    have hidx := congrArg LearnSess.idx hs
    simp at hidx
  · rintro rfl
    cases sls <;> rfl
  · rintro rfl
    cases sd <;> rfl
  · rintro ls rfl hnone
    cases sd with
    | none => rfl
    | some deck =>
      unfold gradeLearn
      dsimp only
      split
      · rename_i c hc
        rw [hnone] at hc
        simp at hc
      · rfl

/-- Witness for `grade_applies_iff_valid` on the concrete sample state. -/
theorem grade_applies_iff_valid_witness :
    (∀ deck ls card, sampleState.selectedDeck = some deck →
        sampleState.learnSession = some ls →
        ls.queue.get? ls.idx = some card →
        gradeLearn sampleState 2 100 =
          { selectedDeck := some (updateCard deck card.id (scheduleNext card 2 100))
            learnSession := some { ls with
              idx := ls.idx + 1
              flipped := false
              graded := ls.graded + 1 } }
        ∧ gradeLearn sampleState 2 100 ≠ sampleState)
    ∧ (sampleState.selectedDeck = none → gradeLearn sampleState 2 100 = sampleState)
    ∧ (sampleState.learnSession = none → gradeLearn sampleState 2 100 = sampleState)
    ∧ (∀ ls, sampleState.learnSession = some ls → ls.queue.get? ls.idx = none →
        gradeLearn sampleState 2 100 = sampleState) :=
  grade_applies_iff_valid sampleState 2 100

/-- C10: grading leaves the Learn Queue's stored card snapshots untouched —
the session queue after `gradeLearn` is exactly the queue before (only the
deck's collection receives the updated card) — and `scheduleNext` builds a
card that keeps the identifier, term and definition of its argument. -/
theorem grading_preserves_queue_snapshot (st : LearnState) (g : ℤ) (now : ℚ) (card : CardT) :
    Option.map LearnSess.queue (gradeLearn st g now).learnSession
      = Option.map LearnSess.queue st.learnSession
    ∧ (scheduleNext card g now).id = card.id
    ∧ (scheduleNext card g now).term = card.term
    ∧ (scheduleNext card g now).definition = card.definition := by
  refine ⟨?_, ?_, ?_, ?_⟩
  · obtain ⟨sd, sls⟩ := st
    cases sd with
    | none => cases sls <;> rfl
    | some deck =>
      cases sls with
      | none => rfl
      | some ls =>
        unfold gradeLearn
        dsimp only
        split
        · rfl
        · rfl
  · unfold scheduleNext scheduleNextClk
    split <;> rfl
  · unfold scheduleNext scheduleNextClk
    split <;> rfl
  · unfold scheduleNext scheduleNextClk
    split <;> rfl

/-- Witness for `grading_preserves_queue_snapshot` on the sample state. -/
theorem grading_preserves_queue_snapshot_witness :
    Option.map LearnSess.queue (gradeLearn sampleState 3 100).learnSession
      = Option.map LearnSess.queue sampleState.learnSession
    ∧ (scheduleNext sampleCard 3 100).id = sampleCard.id
    ∧ (scheduleNext sampleCard 3 100).term = sampleCard.term
    ∧ (scheduleNext sampleCard 3 100).definition = sampleCard.definition :=
  grading_preserves_queue_snapshot sampleState 3 100 sampleCard
